import Mathlib

/-!
Verification development for the workflow/nodeflow dataflow-graph library.

The definitions below are a shallow embedding of the C++ sources
(src/workflow/src/nodeflow.cpp, src/workflow/include/workflow/nodeflow_impl.hpp).
Value channels (std::promise / std::shared_future pairs) become an explicit
Channel state; the unordered_map registries become association lists that keep
insertion order (the processing order of the corresponding C++ loops);
fallible operations return Except.
-/

namespace Workflow

/-- Shallow embedding of std::any values as they appear in the examples:
an empty any (std::any with no value), an int, or a string. -/
inductive AnyVal where
  | empty : AnyVal
  | vint (n : Int) : AnyVal
  | vstr (s : String) : AnyVal
deriving DecidableEq

/-- Errors raised by the library (runtime_error messages in nodeflow.cpp,
std::future_error from double promise writes, std::bad_any_cast). -/
inductive WError where
  | unknownOutputKey (k : String) : WError
  | nodeNotFound (n : String) : WError
  | duplicateNodeName (n : String) : WError
  | promiseAlreadySatisfied : WError
  | typeMismatch : WError
deriving DecidableEq

/-- A value channel: the shared state behind one promise/shared_future pair.
unset: promise not yet satisfied (readers block); set: value stored;
exn: an exception stored via set_exception (readers rethrow). -/
inductive Channel where
  | unset : Channel
  | set (v : AnyVal) : Channel
  | exn (e : WError) : Channel
deriving DecidableEq

/-- promise::set_value - the first write fulfils the channel, writing an
already-satisfied channel raises std::future_error (promise_already_satisfied). -/
def Channel.write (c : Channel) (v : AnyVal) : Except WError Channel :=
  match c with
  | .unset => .ok (.set v)
  | .set _ => .error .promiseAlreadySatisfied
  | .exn _ => .error .promiseAlreadySatisfied

/-- Outcome of shared_future::get on a channel: the stored value, an
indefinite block (channel never written), or a rethrown stored exception. -/
inductive ReadResult where
  | value (v : AnyVal) : ReadResult
  | blocked : ReadResult
  | raise (e : WError) : ReadResult
deriving DecidableEq

/-- shared_future::get - blocks while unset, returns the value once set,
rethrows a stored exception. -/
def Channel.read (c : Channel) : ReadResult :=
  match c with
  | .unset => .blocked
  | .set v => .value v
  | .exn e => .raise e

namespace Assoc

/-- Lookup in an insertion-ordered association list (unordered_map::find). -/
def find {α : Type} (m : List (String × α)) (k : String) : Option α :=
  match m with
  | [] => none
  | (k2, v) :: rest => if k2 = k then some v else find rest k

/-- Insert-or-overwrite (unordered_map::operator[] assignment). New keys are
appended at the end, existing keys are overwritten in place. -/
def upd {α : Type} (m : List (String × α)) (k : String) (v : α) : List (String × α) :=
  match m with
  | [] => [(k, v)]
  | (k2, v2) :: rest => if k2 = k then (k, v) :: rest else (k2, v2) :: upd rest k v

end Assoc

/-- AnyOutputs::add over a list of keys (nodeflow.cpp:13-27): each key gets a
fresh promise/future pair, i.e. an unset channel. -/
def AnyOutputs.ofKeys (keys : List String) : List (String × Channel) :=
  keys.foldl (fun m k => Assoc.upd m k Channel.unset) []

/-- The promise-setting loop of AnyNode::functor (nodeflow.cpp:100-106):
for each (key, value) of the compute result, look the key up among the
declared output promises - an unknown key raises UnknownKey, otherwise the
channel is written (which itself fails on a second write). Channels written
before an error is raised stay written; the returned pair is the registry
state at the end together with the raised error, if any. -/
def writeOutputs (outs : List (String × Channel)) :
    List (String × AnyVal) → List (String × Channel) × Option WError
  | [] => (outs, none)
  | (k, v) :: rest =>
    match Assoc.find outs k with
    | none => (outs, some (.unknownOutputKey k))
    | some c =>
      match c.write v with
      | .error e => (outs, some e)
      | .ok c2 => writeOutputs (Assoc.upd outs k c2) rest

/-- A reference to one producer channel, as held by a consumer's input
future map: the producing node's registered name and the output key
(std::shared_future aliasing the producer's shared state). -/
abbrev ChannelRef := String × String

/-- One registered node, as stored in GraphBuilder::nodes_: the resolved
input-future map (key to producer channel reference), the output registry,
and the compute step (key-to-value map in, key-to-value map out). -/
structure NodeData where
  inputs : List (String × ChannelRef)
  outputs : List (String × Channel)
  fn : List (String × AnyVal) → List (String × AnyVal)

/-- What a scheduler task registered in GraphBuilder::tasks_ does when it
runs: a task emplaced by add_node runs the named node's functor; a task from
taskflow_.composed_of runs the nested graph (and never the wrapper node's
functor); condition-style tasks run the bespoke lambda of the decl call. -/
inductive TaskAction where
  | functorOf (nodeName : String) : TaskAction
  | composedOf (graphName : String) : TaskAction
  | emplacedCond (nodeName : String) : TaskAction
deriving DecidableEq

/-- GraphBuilder state: the node registry nodes_, the task registry tasks_,
and the precedence edges registered so far via tf::Task::precede, kept with
multiplicity in registration order. -/
structure Builder where
  nodes : List (String × NodeData)
  tasks : List (String × TaskAction)
  edges : List (String × String)

/-- A freshly constructed GraphBuilder. -/
def Builder.init : Builder := ⟨[], [], []⟩

namespace GraphBuilder

/-- The registration step of GraphBuilder::add_node (nodeflow.cpp:364-379)
once the node name is fixed: duplicate registered names are fatal, otherwise
the node is stored in nodes_ and a task running its functor is emplaced and
stored in tasks_. Returns the new state and the registered name (standing in
for the tf::Task). -/
def addNamed (b : Builder) (nm : String) (nd : NodeData) :
    Except WError (Builder × String) :=
  if (Assoc.find b.nodes nm).isSome then
    .error (.duplicateNodeName nm)
  else
    .ok ({ b with nodes := Assoc.upd b.nodes nm nd,
                  tasks := Assoc.upd b.tasks nm (.functorOf nm) }, nm)

/-- GraphBuilder::add_node (nodeflow.cpp:354-380): empty names get a generated
fallback, then the registration step above. -/
def add_node (b : Builder) (name : String) (nd : NodeData) :
    Except WError (Builder × String) :=
  addNamed b (if name = "" then "node_" ++ toString b.nodes.length else name) nd

/-- GraphBuilder::get_output (nodeflow.cpp:423-429) together with the node's
get_output_future: unknown node names and unknown output keys are fatal;
on success the consumer holds a reference to the producer's channel. -/
def get_output (b : Builder) (node_name key : String) : Except WError ChannelRef :=
  match Assoc.find b.nodes node_name with
  | none => .error (.nodeNotFound node_name)
  | some nd =>
    match Assoc.find nd.outputs key with
    | none => .error (.unknownOutputKey key)
    | some _ => .ok (node_name, key)

/-- The input-future resolution loop shared by the declarative creation
calls (for example nodeflow.cpp:449-453): iterate over the input specs in
order and store each resolved future under the source KEY alone, so a later
spec with the same key overwrites an earlier one. -/
def resolveAux (b : Builder) (acc : List (String × ChannelRef)) :
    List (String × String) → Except WError (List (String × ChannelRef))
  | [] => .ok acc
  | (src, key) :: rest =>
    match get_output b src key with
    | .error e => .error e
    | .ok r => resolveAux b (Assoc.upd acc key r) rest

/-- Input-future resolution from an empty map (input_futures in the C++). -/
def resolveInputFutures (b : Builder) (specs : List (String × String)) :
    Except WError (List (String × ChannelRef)) :=
  resolveAux b [] specs

/-- The dependency auto-registration loop (nodeflow.cpp:459-464 and its
clones): one precede call per input-spec entry whose source name has a
registered task - duplicates in the specs produce duplicate precede calls. -/
def autoEdges (specs : List (String × String)) (tgt : String)
    (tasks : List (String × TaskAction)) : List (String × String) :=
  match specs with
  | [] => []
  | (src, _) :: rest =>
    if (Assoc.find tasks src).isSome
    then (src, tgt) :: autoEdges rest tgt tasks
    else autoEdges rest tgt tasks

/-- GraphBuilder::create_any_source (nodeflow.cpp:435-441): an AnySource whose
functor writes the stored values; output keys are the value-map keys. -/
def create_any_source (b : Builder) (name : String)
    (values : List (String × AnyVal)) : Except WError (Builder × String) :=
  add_node b name
    { inputs := [], outputs := AnyOutputs.ofKeys (values.map Prod.fst),
      fn := fun _ => values }

/-- GraphBuilder::create_any_node (nodeflow.cpp:443-467): resolve the input
futures (fatal on unknown node or key, before any registration), add the
node through add_node (fatal on duplicate name), then register one
precedence edge per input-spec entry with a registered source task. -/
def create_any_node (b : Builder) (name : String)
    (specs : List (String × String))
    (fn : List (String × AnyVal) → List (String × AnyVal))
    (output_keys : List String) : Except WError (Builder × String) :=
  match resolveInputFutures b specs with
  | .error e => .error e
  | .ok fins =>
    match add_node b name
        { inputs := fins, outputs := AnyOutputs.ofKeys output_keys, fn := fn } with
    | .error e => .error e
    | .ok (b1, nm) => .ok ({ b1 with edges := b1.edges ++ autoEdges specs nm b1.tasks }, nm)

/-- GraphBuilder::create_any_sink (nodeflow.cpp:475-499): same resolution and
wiring as create_any_node; the sink has no outputs and produces nothing. -/
def create_any_sink (b : Builder) (name : String)
    (specs : List (String × String)) : Except WError (Builder × String) :=
  match resolveInputFutures b specs with
  | .error e => .error e
  | .ok fins =>
    match add_node b name { inputs := fins, outputs := [], fn := fun _ => [] } with
    | .error e => .error e
    | .ok (b1, nm) => .ok ({ b1 with edges := b1.edges ++ autoEdges specs nm b1.tasks }, nm)

/-- GraphBuilder::create_condition_decl (nodeflow.cpp:646-692): resolve the
input futures, then assign nodes_[name] and tasks_[name] DIRECTLY - no
duplicate-name check, an existing registration is silently overwritten.
The emplaced lambda writes the "result" output channel if declared and
returns the branch index. Successor wiring adds one edge per successor. -/
def create_condition_decl (b : Builder) (name : String)
    (specs : List (String × String))
    (condFn : List (String × AnyVal) → Int)
    (successors : List String)
    (output_keys : List String) : Except WError (Builder × String) :=
  match resolveInputFutures b specs with
  | .error e => .error e
  | .ok fins =>
    let outs := AnyOutputs.ofKeys output_keys
    let nd : NodeData :=
      { inputs := fins, outputs := outs,
        fn := fun ins =>
          match Assoc.find outs "result" with
          | some _ => [("result", AnyVal.vint (condFn ins))]
          | none => [] }
    let b1 : Builder :=
      { b with nodes := Assoc.upd b.nodes name nd,
               tasks := Assoc.upd b.tasks name (.emplacedCond name) }
    .ok ({ b1 with edges :=
            b1.edges ++ autoEdges specs name b1.tasks
              ++ successors.map (fun s => (name, s)) }, name)

/-- The keyed GraphBuilder::create_subgraph (nodeflow.cpp:517-576): resolve
the input futures; call the builder function AT CONSTRUCTION TIME with a
placeholder input map binding every resolved input key to an empty std::any
(the loop at lines 534-539); wrap the subgraph in an AnyNode whose compute
step returns an empty std::any for every declared output key (lines 548-557);
the scheduler task is composed_of the nested taskflow, so the wrapper
functor is NEVER emplaced as a task; nodes_[name] and tasks_[name] are
assigned directly (no duplicate check). Returns the new state together with
the placeholder map that was passed to the builder function. -/
def create_subgraph (b : Builder) (name : String)
    (specs : List (String × String))
    (output_keys : List String) :
    Except WError (Builder × List (String × AnyVal)) :=
  match resolveInputFutures b specs with
  | .error e => .error e
  | .ok fins =>
    let builderArg := fins.map (fun p => (p.1, AnyVal.empty))
    let nd : NodeData :=
      { inputs := fins, outputs := AnyOutputs.ofKeys output_keys,
        fn := fun _ => output_keys.map (fun k => (k, AnyVal.empty)) }
    let b1 : Builder :=
      { b with nodes := Assoc.upd b.nodes name nd,
               tasks := Assoc.upd b.tasks name (.composedOf name) }
    .ok ({ b1 with edges := b1.edges ++ autoEdges specs name b1.tasks }, builderArg)

/-- The keyed GraphBuilder::create_subtask (nodeflow.cpp:594-644): resolve
the input futures; wrap the nested graph in an AnyNode whose compute step
builds and coruns the nested graph at execution time and then returns an
empty std::any for every declared output key (lines 609-628); the node goes
through add_any_node, so its functor IS the scheduler task and duplicate
names are fatal; then the usual edge registration. -/
def create_subtask (b : Builder) (name : String)
    (specs : List (String × String))
    (output_keys : List String) : Except WError (Builder × String) :=
  match resolveInputFutures b specs with
  | .error e => .error e
  | .ok fins =>
    let nd : NodeData :=
      { inputs := fins, outputs := AnyOutputs.ofKeys output_keys,
        fn := fun _ => output_keys.map (fun k => (k, AnyVal.empty)) }
    match add_node b name nd with
    | .error e => .error e
    | .ok (b1, nm) => .ok ({ b1 with edges := b1.edges ++ autoEdges specs nm b1.tasks }, nm)

end GraphBuilder

/-- Dereference a consumer-held channel reference against the current graph
state (the shared state behind the producer's shared_future). -/
def derefChannel (b : Builder) (r : ChannelRef) : Option Channel :=
  match Assoc.find b.nodes r.1 with
  | none => none
  | some nd => Assoc.find nd.outputs r.2

/-- The input-collection loop at the start of every functor (for example
nodeflow.cpp:93-96): get every input future. All inputs must already be set;
an unset input would block the worker (modelled as no value). -/
def readAll (b : Builder) : List (String × ChannelRef) → Option (List (String × AnyVal))
  | [] => some []
  | (k, r) :: rest =>
    match derefChannel b r with
    | some (.set v) =>
      match readAll b rest with
      | some vs => some ((k, v) :: vs)
      | none => none
    | _ => none

/-- Execute one scheduler task: a functorOf task runs the node's functor
(collect inputs, apply the compute step, write the output channels); a
composedOf task runs the nested taskflow, which never touches the wrapper
node's channels; condition tasks are modelled separately by the loop
machinery. -/
def execTask (b : Builder) (name : String) : Builder :=
  match Assoc.find b.tasks name with
  | some (.functorOf n) =>
    match Assoc.find b.nodes n with
    | some nd =>
      match readAll b nd.inputs with
      | some vals =>
        let res := writeOutputs nd.outputs (nd.fn vals)
        { b with nodes := Assoc.upd b.nodes n { nd with outputs := res.1 } }
      | none => b
    | none => b
  | _ => b

/-- Execute a schedule (a dependency-respecting task order chosen by the
external executor) task by task. -/
def runSchedule (b : Builder) : List String → Builder
  | [] => b
  | n :: rest => runSchedule (execTask b n) rest

/-!
Loop encoding. GraphBuilder::create_loop_decl (nodeflow.cpp:743-910) emplaces
three tasks and wires them as
  body_task.precede(cond_task);
  cond_task.precede(body_task, exit_task);
so the condition task's integer return value selects a successor from the
static ordered list [body_task, exit_task] (spec section 6: 0-based index;
an out-of-range index selects nothing and the run simply drains).
The body task rebuilds and coruns a fresh nested graph each iteration, whose
only cross-iteration effect is on the externally owned mutable cell (the
sigma state below). The condition task evaluates condition_func against that
cell and, if "result" is among the declared output keys, writes the returned
index into the single-assignment "result" channel (nodeflow.cpp:841-843)
BEFORE returning it - a write that throws std::future_error from the second
iteration on, aborting the run.
-/

/-- Phase of the loop encoding between scheduler steps: which of the three
tasks runs next, or a terminal phase (drained, or aborted by a thrown
exception). -/
inductive LoopPhase where
  | body : LoopPhase
  | cond : LoopPhase
  | exitT : LoopPhase
  | halted : LoopPhase
  | failed (e : WError) : LoopPhase
deriving DecidableEq

/-- Observable loop-run state: the externally owned mutable cell, the
"result" output channel, and how many times the body and exit tasks ran. -/
structure LoopState (σ : Type) where
  cell : σ
  resultCh : Channel
  bodies : Nat
  exits : Nat
deriving DecidableEq

/-- One scheduler step of the loop wiring of create_loop_decl. bodyFn is the
effect of one fresh body subgraph on the external cell; pred is
condition_func reading the cell; hasResult states whether "result" is among
the declared output keys (so whether the condition task writes the channel). -/
def loopStep {σ : Type} (bodyFn : σ → σ) (pred : σ → Int) (hasResult : Bool) :
    LoopPhase × LoopState σ → LoopPhase × LoopState σ
  | (.body, st) => (.cond, { st with cell := bodyFn st.cell, bodies := st.bodies + 1 })
  | (.cond, st) =>
    let r := pred st.cell
    match (if hasResult then st.resultCh.write (.vint r) else .ok st.resultCh) with
    | .error e => (.failed e, st)
    | .ok ch =>
      let st2 := { st with resultCh := ch }
      if r = 0 then (.body, st2)
      else if r = 1 then (.exitT, st2)
      else (.halted, st2)
  | (.exitT, st) => (.halted, { st with exits := st.exits + 1 })
  | (.halted, st) => (.halted, st)
  | (.failed e, st) => (.failed e, st)

/-- Iterate the loop wiring for a number of scheduler steps (terminal phases
are absorbing, so any sufficiently large fuel yields the final state). -/
def loopRun {σ : Type} (bodyFn : σ → σ) (pred : σ → Int) (hasResult : Bool) :
    Nat → LoopPhase × LoopState σ → LoopPhase × LoopState σ
  | 0, ps => ps
  | n + 1, ps => loopRun bodyFn pred hasResult n (loopStep bodyFn pred hasResult ps)

/-- Start of a graph run: the input sources have fired and the body task is
scheduled first (the input-spec edges point at body_task,
nodeflow.cpp:897-903); no body or exit execution yet, result channel unset. -/
def loopStart {σ : Type} (s0 : σ) : LoopPhase × LoopState σ :=
  (.body, { cell := s0, resultCh := .unset, bodies := 0, exits := 0 })

/-- Invariant giving "the exit task runs at most once": while the loop is
still in flight the exit count is zero, and terminal phases carry at most
one exit execution. -/
def loopInv {σ : Type} (ps : LoopPhase × LoopState σ) : Prop :=
  match ps.1 with
  | .body => ps.2.exits = 0
  | .cond => ps.2.exits = 0
  | .exitT => ps.2.exits = 0
  | .halted => ps.2.exits ≤ 1
  | .failed _ => ps.2.exits ≤ 1

/-!
Typed/type-erased bridging. GraphBuilder::get_typed_input_impl
(nodeflow_impl.hpp:504-548) emplaces an adapter task that gets the
producer's std::any future, attempts std::any_cast to the consumer's input
type and either fulfils the typed promise or stores the bad_any_cast
exception in it. TypedNode::functor (nodeflow_impl.hpp:183-208) then gets
the typed futures - rethrowing a stored exception, which makes that node's
task fail - and only on success writes its own output channels.
-/

/-- Concrete C++ types a typed consumer can expect for an input. -/
inductive TypeTag where
  | tint : TypeTag
  | tstr : TypeTag
deriving DecidableEq

/-- std::any_cast of a type-erased value to the expected concrete type: a
mismatching or empty any raises std::bad_any_cast (TypeMismatch). -/
def anyCast (t : TypeTag) (v : AnyVal) : Except WError AnyVal :=
  match t, v with
  | .tint, .vint n => .ok (.vint n)
  | .tstr, .vstr s => .ok (.vstr s)
  | _, _ => .error .typeMismatch

/-- The adapter task body (nodeflow_impl.hpp:530-538) applied to the
producer's channel: on a ready value it any_casts, fulfilling the typed
channel on success and storing the TypeMismatch exception on failure; with
an unready producer the adapter blocks, leaving the typed channel unset. -/
def adapterRun (t : TypeTag) (src : Channel) : Channel :=
  match src with
  | .set v =>
    match anyCast t v with
    | .ok tv => .set tv
    | .error e => .exn e
  | .unset => .unset
  | .exn _ => .unset

/-- Outcome of running one typed consumer task. -/
inductive RunOutcome where
  | completed (out : Channel) : RunOutcome
  | failedWith (e : WError) : RunOutcome
  | blockedWait : RunOutcome
deriving DecidableEq

/-- TypedNode::functor for a single-input consumer: get the typed input
future (value, stored exception rethrown as a task failure, or an
indefinite block), then compute and fulfil the output channel. -/
def typedNodeRun (fin : Channel) (compute : AnyVal → AnyVal) : RunOutcome :=
  match fin with
  | .set v => .completed (.set (compute v))
  | .exn e => .failedWith e
  | .unset => .blockedWait

/-- The consumer's output channel after its task ran: fulfilled only when
the task completed, left unset when it failed or blocked. -/
def outChannelOf (o : RunOutcome) : Channel :=
  match o with
  | .completed c => c
  | .failedWith _ => .unset
  | .blockedWait => .unset

/-!
Concrete builder states used by the counterexamples and witnesses.
-/

/-- A builder holding one type-erased source "P" with output key "x". -/
def exP : Builder :=
  match GraphBuilder.create_any_source Builder.init "P" [("x", AnyVal.vint 3)] with
  | .ok p => p.1
  | .error _ => Builder.init

/-- exP extended by a keyed subgraph "G" reading P.x and declaring output "y"
(the create_subgraph path: wrapper functor never installed as a task). -/
def exPG : Builder :=
  match GraphBuilder.create_subgraph exP "G" [("P", "x")] ["y"] with
  | .ok p => p.1
  | .error _ => Builder.init

/-- exPG after a full run (schedule: source P, then composed task G). -/
def exPGrun : Builder := runSchedule exPG ["P", "G"]

/-- exP extended by a keyed subtask "T" reading P.x and declaring output "y"
(the create_subtask path: wrapper functor IS the task). -/
def exPT : Builder :=
  match GraphBuilder.create_subtask exP "T" [("P", "x")] ["y"] with
  | .ok p => p.1
  | .error _ => Builder.init

/-- exPT after a full run (schedule: source P, then subtask T). -/
def exPTrun : Builder := runSchedule exPT ["P", "T"]

/-- exP extended by a consumer "C" whose input specs name the same
(source, key) pair twice. -/
def exPdup : Builder :=
  match GraphBuilder.create_any_node exP "C" [("P", "x"), ("P", "x")]
      (fun _ => []) ["o"] with
  | .ok p => p.1
  | .error _ => Builder.init

/-- A builder holding one source named "X" (for the duplicate-name claim). -/
def exX : Builder :=
  match GraphBuilder.create_any_source Builder.init "X" [("x", AnyVal.vint 1)] with
  | .ok p => p.1
  | .error _ => Builder.init

/-- create_condition_decl on exX reusing the already-registered name "X". -/
def exXcond : Except WError (Builder × String) :=
  GraphBuilder.create_condition_decl exX "X" [] (fun _ => 0) [] ["result"]

/-- The builder produced by exXcond (meaningful because exXcond succeeds). -/
def exXcondB : Builder :=
  match exXcond with
  | .ok p => p.1
  | .error _ => Builder.init

/-- Whether an Except value is a success. -/
def exceptOk {ε α : Type} (x : Except ε α) : Bool :=
  match x with
  | .ok _ => true
  | .error _ => false

/-- A builder holding two type-erased sources "A" and "B" that both declare
the same output key name "k". -/
def exAB : Builder :=
  match GraphBuilder.create_any_source Builder.init "A" [("k", AnyVal.vint 1)] with
  | .ok p =>
    match GraphBuilder.create_any_source p.1 "B" [("k", AnyVal.vint 2)] with
    | .ok q => q.1
    | .error _ => Builder.init
  | .error _ => Builder.init

/-!
Helper lemmas about the association-list operations, the output registry,
input resolution, edge registration and the loop invariant.
-/

theorem Assoc.find_upd_self {α : Type} (m : List (String × α)) (k : String) (v : α) :
    Assoc.find (Assoc.upd m k v) k = some v := by
  induction m with
  | nil => simp [Assoc.upd, Assoc.find]
  | cons hd t ih =>
    obtain ⟨k2, v2⟩ := hd
    by_cases hk : k2 = k
    · subst hk; simp [Assoc.upd, Assoc.find]
    · simp [Assoc.upd, Assoc.find, hk, ih]

theorem Assoc.find_upd_of_ne {α : Type} (m : List (String × α)) (k k2 : String) (v : α)
    (h : k ≠ k2) : Assoc.find (Assoc.upd m k v) k2 = Assoc.find m k2 := by
  induction m with
  | nil => simp [Assoc.upd, Assoc.find, h]
  | cons hd t ih =>
    obtain ⟨k3, v3⟩ := hd
    by_cases hk : k3 = k
    · subst hk; simp [Assoc.upd, Assoc.find, h]
    · simp [Assoc.upd, Assoc.find, hk, ih]

theorem Assoc.find_append_none {α : Type} (m1 m2 : List (String × α)) (k : String)
    (h : Assoc.find m1 k = none) : Assoc.find (m1 ++ m2) k = Assoc.find m2 k := by
  induction m1 with
  | nil => simp
  | cons hd t ih =>
    obtain ⟨k2, v2⟩ := hd
    by_cases hk : k2 = k
    · subst hk; simp [Assoc.find] at h
    · simp [Assoc.find, hk] at h ⊢
      exact ih h

theorem Assoc.upd_of_find_none {α : Type} (m : List (String × α)) (k : String) (v : α)
    (h : Assoc.find m k = none) : Assoc.upd m k v = m ++ [(k, v)] := by
  induction m with
  | nil => simp [Assoc.upd]
  | cons hd t ih =>
    obtain ⟨k2, v2⟩ := hd
    by_cases hk : k2 = k
    · subst hk; simp [Assoc.find] at h
    · simp [Assoc.find, hk] at h
      simp [Assoc.upd, hk, ih h]

theorem Assoc.upd_append_of_none {α : Type} (m1 m2 : List (String × α)) (k : String) (v : α)
    (h : Assoc.find m1 k = none) : Assoc.upd (m1 ++ m2) k v = m1 ++ Assoc.upd m2 k v := by
  induction m1 with
  | nil => simp
  | cons hd t ih =>
    obtain ⟨k2, v2⟩ := hd
    by_cases hk : k2 = k
    · subst hk; simp [Assoc.find] at h
    · simp [Assoc.find, hk] at h
      simp [Assoc.upd, hk, ih h]

theorem ofKeys_foldl_unset (keys : List String) :
    ∀ (m : List (String × Channel)) (k : String),
    (Assoc.find m k = some Channel.unset ∨ k ∈ keys) →
    Assoc.find (keys.foldl (fun m2 k2 => Assoc.upd m2 k2 Channel.unset) m) k
      = some Channel.unset := by
  induction keys with
  | nil =>
    intro m k h
    rcases h with h | h
    · simpa using h
    · cases h
  | cons a rest ih =>
    intro m k h
    simp only [List.foldl_cons]
    apply ih
    rcases h with h | h
    · by_cases hak : a = k
      · subst hak; exact Or.inl (Assoc.find_upd_self m a Channel.unset)
      · rw [Assoc.find_upd_of_ne m a k Channel.unset hak] at *
        exact Or.inl h
    · rcases List.mem_cons.mp h with rfl | hmem
      · exact Or.inl (Assoc.find_upd_self m k Channel.unset)
      · exact Or.inr hmem

theorem ofKeys_find_unset (keys : List String) (k : String) (h : k ∈ keys) :
    Assoc.find (AnyOutputs.ofKeys keys) k = some Channel.unset :=
  ofKeys_foldl_unset keys [] k (Or.inr h)

theorem ofKeys_foldl_eq_map (keys : List String) :
    ∀ (m : List (String × Channel)), keys.Nodup →
    (∀ k ∈ keys, Assoc.find m k = none) →
    keys.foldl (fun m2 k2 => Assoc.upd m2 k2 Channel.unset) m
      = m ++ keys.map (fun k => (k, Channel.unset)) := by
  induction keys with
  | nil => intro m _ _; simp
  | cons a rest ih =>
    intro m hn hf
    simp only [List.foldl_cons, List.map_cons]
    rw [Assoc.upd_of_find_none m a Channel.unset (hf a (List.mem_cons_self a rest))]
    rw [ih (m ++ [(a, Channel.unset)]) (List.Nodup.of_cons hn) ?_]
    · simp
    · intro k hk
      have hka : a ≠ k := by
        intro heq
        subst heq
        exact (List.nodup_cons.mp hn).1 hk
      rw [Assoc.find_append_none m [(a, Channel.unset)] k (hf k (List.mem_cons_of_mem a hk))]
      simp [Assoc.find, hka]

theorem ofKeys_eq_map (keys : List String) (hn : keys.Nodup) :
    AnyOutputs.ofKeys keys = keys.map (fun k => (k, Channel.unset)) := by
  unfold AnyOutputs.ofKeys
  rw [ofKeys_foldl_eq_map keys [] hn (by intro k _; simp [Assoc.find])]
  simp

theorem writeOutputs_fill (v : AnyVal) (keys : List String) :
    ∀ (pre : List (String × Channel)), keys.Nodup →
    (∀ k ∈ keys, Assoc.find pre k = none) →
    writeOutputs (pre ++ keys.map (fun k => (k, Channel.unset)))
        (keys.map (fun k => (k, v)))
      = (pre ++ keys.map (fun k => (k, Channel.set v)), none) := by
  induction keys with
  | nil => intro pre _ _; simp [writeOutputs]
  | cons a rest ih =>
    intro pre hn hf
    have hfa : Assoc.find pre a = none := hf a (List.mem_cons_self a rest)
    have hfind : Assoc.find (pre ++ (a, Channel.unset) :: rest.map (fun k => (k, Channel.unset))) a
        = some Channel.unset := by
      rw [Assoc.find_append_none _ _ a hfa]
      simp [Assoc.find]
    have hupd : Assoc.upd (pre ++ (a, Channel.unset) :: rest.map (fun k => (k, Channel.unset)))
        a (Channel.set v)
        = (pre ++ [(a, Channel.set v)]) ++ rest.map (fun k => (k, Channel.unset)) := by
      rw [Assoc.upd_append_of_none _ _ a (Channel.set v) hfa]
      simp [Assoc.upd]
    simp only [List.map_cons]
    unfold writeOutputs
    rw [hfind]
    simp only [Channel.write]
    rw [hupd]
    rw [ih (pre ++ [(a, Channel.set v)]) (List.Nodup.of_cons hn) ?_]
    · simp
    · intro k hk
      have hka : a ≠ k := by
        intro heq
        subst heq
        exact (List.nodup_cons.mp hn).1 hk
      rw [Assoc.find_append_none pre [(a, Channel.set v)] k (hf k (List.mem_cons_of_mem a hk))]
      simp [Assoc.find, hka]

theorem get_output_ok (b : Builder) (n k : String) (r : ChannelRef)
    (h : GraphBuilder.get_output b n k = .ok r) : r = (n, k) := by
  unfold GraphBuilder.get_output at h
  split at h
  · cases h
  · split at h
    · cases h
    · exact (Except.ok.inj h).symm

theorem resolveAux_error (b : Builder) (specs : List (String × String)) :
    ∀ (acc : List (String × ChannelRef)),
    (∃ p ∈ specs, ∃ e0, GraphBuilder.get_output b p.1 p.2 = .error e0) →
    ∃ e, GraphBuilder.resolveAux b acc specs = .error e := by
  induction specs with
  | nil =>
    rintro acc ⟨p, hp, _⟩
    cases hp
  | cons a rest ih =>
    obtain ⟨src, key⟩ := a
    rintro acc ⟨p, hp, e0, he⟩
    rcases List.mem_cons.mp hp with rfl | hmem
    · exact ⟨e0, by simp only [GraphBuilder.resolveAux] at *; rw [he]⟩
    · cases hgo : GraphBuilder.get_output b src key with
      | error e => exact ⟨e, by simp only [GraphBuilder.resolveAux]; rw [hgo]⟩
      | ok r =>
        obtain ⟨e, hres⟩ := ih (Assoc.upd acc key r) ⟨p, hmem, e0, he⟩
        exact ⟨e, by simp only [GraphBuilder.resolveAux]; rw [hgo]; exact hres⟩

theorem autoEdges_mem (specs : List (String × String)) (tgt : String)
    (tasks : List (String × TaskAction)) (s t : String) :
    (s, t) ∈ GraphBuilder.autoEdges specs tgt tasks ↔
      (t = tgt ∧ s ∈ specs.map Prod.fst ∧ (Assoc.find tasks s).isSome) := by
  induction specs with
  | nil => simp [GraphBuilder.autoEdges]
  | cons a rest ih =>
    obtain ⟨a1, a2⟩ := a
    by_cases h : (Assoc.find tasks a1).isSome
    · simp only [GraphBuilder.autoEdges, if_pos h, List.mem_cons, List.map_cons]
      constructor
      · rintro (heq | hmem)
        · obtain ⟨rfl, rfl⟩ := Prod.mk.injEq .. ▸ heq
          exact ⟨rfl, Or.inl rfl, h⟩
        · obtain ⟨ht, hs, hsome⟩ := ih.mp hmem
          exact ⟨ht, Or.inr hs, hsome⟩
      · rintro ⟨rfl, hs | hs, hsome⟩
        · subst hs; exact Or.inl rfl
        · exact Or.inr (ih.mpr ⟨rfl, hs, hsome⟩)
    · simp only [GraphBuilder.autoEdges, if_neg h, List.mem_cons, List.map_cons]
      constructor
      · intro hmem
        obtain ⟨ht, hs, hsome⟩ := ih.mp hmem
        exact ⟨ht, Or.inr hs, hsome⟩
      · rintro ⟨rfl, hs | hs, hsome⟩
        · subst hs; exact absurd hsome h
        · exact ih.mpr ⟨rfl, hs, hsome⟩

theorem loopInv_step {σ : Type} (f : σ → σ) (p : σ → Int) (hr : Bool)
    (ps : LoopPhase × LoopState σ) (h : loopInv ps) :
    loopInv (loopStep f p hr ps) := by
  obtain ⟨ph, st⟩ := ps
  cases ph with
  | body => simpa [loopStep, loopInv] using h
  | cond =>
    simp only [loopInv] at h
    simp only [loopStep]
    cases hw : (if hr then st.resultCh.write (.vint (p st.cell)) else .ok st.resultCh) with
    | error e => simp [loopInv, h]
    | ok ch =>
      by_cases h0 : p st.cell = 0
      · simp [loopInv, h0, h]
      · by_cases h1 : p st.cell = 1
        · simp [loopInv, h0, h1, h]
        · simp [loopInv, h0, h1, h]
  | exitT =>
    simp only [loopInv] at h
    simp [loopStep, loopInv, h]
  | halted => simpa [loopStep, loopInv] using h
  | failed e => simpa [loopStep, loopInv] using h

theorem loopInv_run {σ : Type} (f : σ → σ) (p : σ → Int) (hr : Bool) (n : Nat) :
    ∀ (ps : LoopPhase × LoopState σ), loopInv ps → loopInv (loopRun f p hr n ps) := by
  induction n with
  | zero => intro ps h; exact h
  | succ n ih =>
    intro ps h
    exact ih (loopStep f p hr ps) (loopInv_step f p hr ps h)

theorem loopRun_exits_le_one {σ : Type} (f : σ → σ) (p : σ → Int) (hr : Bool)
    (n : Nat) (s0 : σ) :
    (loopRun f p hr n (loopStart s0)).2.exits ≤ 1 := by
  have h := loopInv_run f p hr n (loopStart s0) (by simp [loopInv, loopStart])
  revert h
  cases hps : loopRun f p hr n (loopStart s0) with
  | mk ph st =>
    cases ph <;> simp [loopInv] <;> omega

theorem writeOutputs_bad_key (outVals : List (String × AnyVal)) :
    ∀ (outs : List (String × Channel)),
    (outVals.map Prod.fst).Nodup →
    (∀ p ∈ outVals, ∀ c, Assoc.find outs p.1 = some c → c = Channel.unset) →
    (∃ p ∈ outVals, Assoc.find outs p.1 = none) →
    ∃ k2, (writeOutputs outs outVals).2 = some (WError.unknownOutputKey k2) := by
  induction outVals with
  | nil =>
    rintro outs _ _ ⟨p, hp, _⟩
    cases hp
  | cons a rest ih =>
    obtain ⟨k, v⟩ := a
    rintro outs hn hunset hbad
    simp only [List.map_cons, List.nodup_cons] at hn
    cases hf : Assoc.find outs k with
    | none => exact ⟨k, by unfold writeOutputs; rw [hf]⟩
    | some c =>
      have hc : c = Channel.unset :=
        hunset (k, v) (List.mem_cons_self _ _) c hf
      subst hc
      unfold writeOutputs
      rw [hf]
      simp only [Channel.write]
      apply ih (Assoc.upd outs k (Channel.set v)) hn.2
      · intro p hp c2 hc2
        have hkp : k ≠ p.1 := by
          intro heq
          exact hn.1 (heq ▸ List.mem_map_of_mem Prod.fst hp)
        rw [Assoc.find_upd_of_ne outs k p.1 (Channel.set v) hkp] at hc2
        exact hunset p (List.mem_cons_of_mem _ hp) c2 hc2
      · obtain ⟨p, hp, hpn⟩ := hbad
        rcases List.mem_cons.mp hp with rfl | hmem
        · rw [hf] at hpn; cases hpn
        · have hkp : k ≠ p.1 := by
            intro heq
            exact hn.1 (heq ▸ List.mem_map_of_mem Prod.fst hmem)
          exact ⟨p, hmem, by
            rw [Assoc.find_upd_of_ne outs k p.1 (Channel.set v) hkp]; exact hpn⟩

/-!
The claims.
-/

/-- Claim C2: for every node and every declared output key, the key's channel
starts unset, the first write fulfils it, and any second write to the same
channel fails fatally (std::future_error in promise::set_value,
nodeflow.cpp:105). -/
theorem C2_channel_write_once (keys : List String) (k : String) (v w : AnyVal)
    (h : k ∈ keys) :
    Assoc.find (AnyOutputs.ofKeys keys) k = some Channel.unset
    ∧ Channel.write Channel.unset v = .ok (Channel.set v)
    ∧ Channel.write (Channel.set v) w = .error WError.promiseAlreadySatisfied :=
  ⟨ofKeys_find_unset keys k h, rfl, rfl⟩

/-- Witness for C2 at the concrete registry with one key "a". -/
theorem C2_channel_write_once_witness :
    Assoc.find (AnyOutputs.ofKeys ["a"]) "a" = some Channel.unset
    ∧ Channel.write Channel.unset (AnyVal.vint 1) = .ok (Channel.set (AnyVal.vint 1))
    ∧ Channel.write (Channel.set (AnyVal.vint 1)) (AnyVal.vint 2)
        = .error WError.promiseAlreadySatisfied :=
  C2_channel_write_once ["a"] "a" (AnyVal.vint 1) (AnyVal.vint 2) (by simp)

/-- Counterexample to claim C3: a node declaring only output "a" whose
compute step returns the map processed in the order [("a", 7), ("bad", 8)]
does fail with UnknownKey, but the channel for "a" has already been
fulfilled when the error is raised - the claim says NO channel is left set.
(nodeflow.cpp:100-106 writes promises one by one and throws mid-loop.) -/
theorem C3_counterexample :
    writeOutputs [("a", Channel.unset)] [("a", AnyVal.vint 7), ("bad", AnyVal.vint 8)]
      = ([("a", Channel.set (AnyVal.vint 7))], some (WError.unknownOutputKey "bad")) := rfl

/-- Claim C3 as amended: a compute result containing an undeclared key makes
the node execution fail with an UnknownKey error; channels processed before
the offending key remain fulfilled, and no channel is fulfilled exactly in
the case where the unknown key is the first one processed. -/
theorem C3_unknown_key_aborts (outs : List (String × Channel))
    (outVals : List (String × AnyVal))
    (hn : (outVals.map Prod.fst).Nodup)
    (hunset : ∀ p ∈ outVals, ∀ c, Assoc.find outs p.1 = some c → c = Channel.unset)
    (hbad : ∃ p ∈ outVals, Assoc.find outs p.1 = none) :
    (∃ k2, (writeOutputs outs outVals).2 = some (WError.unknownOutputKey k2))
    ∧ (∀ k v rest, outVals = (k, v) :: rest → Assoc.find outs k = none →
        writeOutputs outs outVals = (outs, some (WError.unknownOutputKey k))) := by
  refine ⟨writeOutputs_bad_key outVals outs hn hunset hbad, ?_⟩
  rintro k v rest rfl hf
  unfold writeOutputs
  rw [hf]

/-- Witness for the amended C3 at a node with no declared outputs whose
compute step returns the unknown key "bad" first. -/
theorem C3_unknown_key_aborts_witness :
    (∃ k2, (writeOutputs [] [("bad", AnyVal.vint 1)]).2
        = some (WError.unknownOutputKey k2))
    ∧ writeOutputs [] [("bad", AnyVal.vint 1)]
        = ([], some (WError.unknownOutputKey "bad")) := by
  have h := C3_unknown_key_aborts [] [("bad", AnyVal.vint 1)] (by simp)
      (by intro p hp c hc; simp [Assoc.find] at hc)
      ⟨("bad", AnyVal.vint 1), by simp, rfl⟩
  exact ⟨h.1, h.2 "bad" (AnyVal.vint 1) [] rfl rfl⟩

/-- Claim C5: an input spec referencing an unknown source node or an
undeclared output key makes every keyed creation call fail fatally during
construction - the resolution loop runs before any registration, so the
node is not added. -/
theorem C5_bad_input_spec_fatal (b : Builder) (specs : List (String × String))
    (src key : String) (e0 : WError)
    (hmem : (src, key) ∈ specs)
    (herr : GraphBuilder.get_output b src key = .error e0) :
    (∃ e, GraphBuilder.resolveInputFutures b specs = .error e)
    ∧ (∀ name fn output_keys, ∃ e,
        GraphBuilder.create_any_node b name specs fn output_keys = .error e)
    ∧ (∀ name, ∃ e, GraphBuilder.create_any_sink b name specs = .error e)
    ∧ (∀ name condFn succ output_keys, ∃ e,
        GraphBuilder.create_condition_decl b name specs condFn succ output_keys = .error e)
    ∧ (∀ name output_keys, ∃ e,
        GraphBuilder.create_subgraph b name specs output_keys = .error e)
    ∧ (∀ name output_keys, ∃ e,
        GraphBuilder.create_subtask b name specs output_keys = .error e) := by
  obtain ⟨e, he⟩ := resolveAux_error b specs [] ⟨(src, key), hmem, e0, herr⟩
  have he2 : GraphBuilder.resolveInputFutures b specs = .error e := he
  refine ⟨⟨e, he2⟩, ?_, ?_, ?_, ?_, ?_⟩
  · intro name fn ks
    exact ⟨e, by simp only [GraphBuilder.create_any_node, he2]⟩
  · intro name
    exact ⟨e, by simp only [GraphBuilder.create_any_sink, he2]⟩
  · intro name condFn succ ks
    exact ⟨e, by simp only [GraphBuilder.create_condition_decl, he2]⟩
  · intro name ks
    exact ⟨e, by simp only [GraphBuilder.create_subgraph, he2]⟩
  · intro name ks
    exact ⟨e, by simp only [GraphBuilder.create_subtask, he2]⟩

/-- Witness for C5: creating a consumer against an empty builder with a spec
naming the unregistered node "nosuch" fails. -/
theorem C5_bad_input_spec_fatal_witness :
    (∃ e, GraphBuilder.resolveInputFutures Builder.init [("nosuch", "k")] = .error e)
    ∧ (∃ e, GraphBuilder.create_any_node Builder.init "N" [("nosuch", "k")]
          (fun _ => []) [] = .error e) := by
  have h := C5_bad_input_spec_fatal Builder.init [("nosuch", "k")] "nosuch" "k"
      (WError.nodeNotFound "nosuch") (by simp) rfl
  exact ⟨h.1, h.2.1 "N" (fun _ => []) []⟩

/-- Claim C7: a typed consumer of a type-erased producer goes through an
adapter task; on a bad cast the adapter stores the TypeMismatch failure in
the typed channel, the consumer's own task fails with that TypeMismatch
when it reads the channel (the error is isolated to that task), the
consumer's output channel stays unset, and a dependent reading the unset
channel blocks indefinitely instead of raising anything. -/
theorem C7_type_mismatch_isolated (t : TypeTag) (v : AnyVal)
    (compute : AnyVal → AnyVal)
    (h : anyCast t v = .error WError.typeMismatch) :
    adapterRun t (Channel.set v) = Channel.exn WError.typeMismatch
    ∧ typedNodeRun (adapterRun t (Channel.set v)) compute
        = RunOutcome.failedWith WError.typeMismatch
    ∧ outChannelOf (typedNodeRun (adapterRun t (Channel.set v)) compute) = Channel.unset
    ∧ Channel.read (outChannelOf (typedNodeRun (adapterRun t (Channel.set v)) compute))
        = ReadResult.blocked := by
  have h1 : adapterRun t (Channel.set v) = Channel.exn WError.typeMismatch := by
    simp [adapterRun, h]
  refine ⟨h1, ?_, ?_, ?_⟩ <;> rw [h1] <;> rfl

/-- Witness for C7: an int-typed consumer reading a string-valued any. -/
theorem C7_type_mismatch_isolated_witness :
    adapterRun TypeTag.tint (Channel.set (AnyVal.vstr "s"))
        = Channel.exn WError.typeMismatch
    ∧ typedNodeRun (adapterRun TypeTag.tint (Channel.set (AnyVal.vstr "s"))) id
        = RunOutcome.failedWith WError.typeMismatch := by
  have h := C7_type_mismatch_isolated TypeTag.tint (AnyVal.vstr "s") id rfl
  exact ⟨h.1, h.2.1⟩

/-- Claim C10: input futures are stored in a map keyed by the source output
key alone (nodeflow.cpp:450-453), so two specs sharing a key name keep only
the later source's future - the compute step sees one value for that key -
while the edge loop still registers precedence edges from both sources. -/
theorem C10_input_key_collision (b : Builder) (P1 P2 k : String)
    (h1 : ∃ c1, GraphBuilder.get_output b P1 k = .ok c1)
    (h2 : ∃ c2, GraphBuilder.get_output b P2 k = .ok c2) :
    GraphBuilder.resolveInputFutures b [(P1, k), (P2, k)] = .ok [(k, (P2, k))]
    ∧ (∀ tgt tasks, (Assoc.find tasks P1).isSome → (Assoc.find tasks P2).isSome →
        GraphBuilder.autoEdges [(P1, k), (P2, k)] tgt tasks = [(P1, tgt), (P2, tgt)])
    ∧ (∀ name fn output_keys, name ≠ "" → Assoc.find b.nodes name = none →
        ∃ b2, GraphBuilder.create_any_node b name [(P1, k), (P2, k)] fn output_keys
            = .ok (b2, name)
          ∧ ∃ nd, Assoc.find b2.nodes name = some nd ∧ nd.inputs = [(k, (P2, k))]) := by
  obtain ⟨c1, hc1⟩ := h1
  obtain ⟨c2, hc2⟩ := h2
  have e1 := get_output_ok b P1 k c1 hc1
  subst e1
  have e2 := get_output_ok b P2 k c2 hc2
  subst e2
  have hres : GraphBuilder.resolveInputFutures b [(P1, k), (P2, k)]
      = .ok [(k, (P2, k))] := by
    simp [GraphBuilder.resolveInputFutures, GraphBuilder.resolveAux, hc1, hc2, Assoc.upd]
  refine ⟨hres, ?_, ?_⟩
  · intro tgt tasks ht1 ht2
    simp [GraphBuilder.autoEdges, ht1, ht2]
  · intro name fn ks hname hnone
    simp only [GraphBuilder.create_any_node, hres, GraphBuilder.add_node,
      GraphBuilder.addNamed, if_neg hname, hnone, Option.isSome_none,
      Bool.false_eq_true, if_false]
    exact ⟨_, rfl, _, Assoc.find_upd_self _ _ _, rfl⟩

/-- Witness for C10 on the builder with sources "A" and "B" both declaring
key "k". -/
theorem C10_input_key_collision_witness :
    GraphBuilder.resolveInputFutures exAB [("A", "k"), ("B", "k")]
        = .ok [("k", ("B", "k"))]
    ∧ GraphBuilder.autoEdges [("A", "k"), ("B", "k")] "C2" exAB.tasks
        = [("A", "C2"), ("B", "C2")] := by
  have h := C10_input_key_collision exAB "A" "B" "k" ⟨("A", "k"), rfl⟩ ⟨("B", "k"), rfl⟩
  exact ⟨h.1, h.2.1 "C2" exAB.tasks rfl rfl⟩

/-- Counterexample to claim C4: the builder already holds a node named "X",
yet create_condition_decl with the same name succeeds instead of failing -
it assigns nodes_[name] and tasks_[name] directly (nodeflow.cpp:673-674)
without the duplicate check that only add_node performs. -/
theorem C4_counterexample :
    (Assoc.find exX.nodes "X").isSome = true
    ∧ exceptOk exXcond = true
    ∧ Assoc.find exXcondB.tasks "X" = some (TaskAction.emplacedCond "X") :=
  ⟨rfl, rfl, rfl⟩

/-- Claim C4 as amended: only creation paths routed through add_node reject a
duplicate node name fatally; create_condition_decl (like the other
decl-style paths that assign the registries directly) performs no duplicate
check and silently overwrites the existing node and task registration. -/
theorem C4_duplicate_check_not_universal (b : Builder) (name : String) (nd : NodeData)
    (hname : name ≠ "") (hdup : (Assoc.find b.nodes name).isSome = true) :
    GraphBuilder.add_node b name nd = .error (WError.duplicateNodeName name)
    ∧ (∀ specs condFn succ output_keys fins,
        GraphBuilder.resolveInputFutures b specs = .ok fins →
        ∃ b2, GraphBuilder.create_condition_decl b name specs condFn succ output_keys
            = .ok (b2, name)
          ∧ Assoc.find b2.tasks name = some (TaskAction.emplacedCond name)) := by
  constructor
  · unfold GraphBuilder.add_node GraphBuilder.addNamed
    rw [if_neg hname, if_pos hdup]
  · intro specs condFn succ ks fins hres
    simp only [GraphBuilder.create_condition_decl, hres]
    exact ⟨_, rfl, Assoc.find_upd_self _ _ _⟩

/-- Witness for the amended C4 on the builder that already holds node "X". -/
theorem C4_duplicate_check_not_universal_witness :
    GraphBuilder.add_node exX "X" { inputs := [], outputs := [], fn := fun _ => [] }
        = .error (WError.duplicateNodeName "X")
    ∧ ∃ b2, GraphBuilder.create_condition_decl exX "X" [] (fun _ => 0) [] ["result"]
          = .ok (b2, "X")
        ∧ Assoc.find b2.tasks "X" = some (TaskAction.emplacedCond "X") := by
  have h := C4_duplicate_check_not_universal exX "X"
      { inputs := [], outputs := [], fn := fun _ => [] } (by decide) rfl
  exact ⟨h.1, h.2 [] (fun _ => 0) [] ["result"] [] rfl⟩

/-- Counterexample to claim C6: a consumer "C" created with the duplicate
input specs [("P","x"), ("P","x")] gets the precedence edge P to C
registered TWICE (one precede call per spec entry, nodeflow.cpp:459-464) -
the claim says duplicates collapse to a single scheduling edge. -/
theorem C6_counterexample :
    exPdup.edges = [("P", "C"), ("P", "C")] := rfl

/-- Claim C6 as amended: the registered edges are determined by the
source-node names alone - an edge src to consumer appears exactly for the
spec entries whose source has a registered task - but one edge is added per
input-spec entry, so duplicate (source, key) specs register the same edge
once per occurrence instead of collapsing. -/
theorem C6_edges_per_spec_entry (b : Builder) (name : String)
    (specs : List (String × String))
    (fn : List (String × AnyVal) → List (String × AnyVal))
    (output_keys : List String) (b2 : Builder) (nm : String)
    (hname : name ≠ "")
    (h : GraphBuilder.create_any_node b name specs fn output_keys = .ok (b2, nm)) :
    nm = name
    ∧ b2.edges = b.edges
        ++ GraphBuilder.autoEdges specs name (Assoc.upd b.tasks name (.functorOf name))
    ∧ (∀ s t, (s, t) ∈ GraphBuilder.autoEdges specs name
          (Assoc.upd b.tasks name (.functorOf name)) ↔
        (t = name ∧ s ∈ specs.map Prod.fst
          ∧ (Assoc.find (Assoc.upd b.tasks name (.functorOf name)) s).isSome)) := by
  unfold GraphBuilder.create_any_node at h
  cases hres : GraphBuilder.resolveInputFutures b specs with
  | error e =>
    rw [hres] at h
    exact (Except.noConfusion h)
  | ok fins =>
    rw [hres] at h
    dsimp only at h
    unfold GraphBuilder.add_node GraphBuilder.addNamed at h
    rw [if_neg hname] at h
    by_cases hdup : (Assoc.find b.nodes name).isSome
    · rw [if_pos hdup] at h
      exact (Except.noConfusion h)
    · rw [if_neg hdup] at h
      have h2 := Except.ok.inj h
      injection h2 with hb hnm
      subst hb
      subst hnm
      exact ⟨rfl, rfl, fun s t => autoEdges_mem specs name _ s t⟩

/-- Witness for the amended C6 at the duplicate-spec consumer "C". -/
theorem C6_edges_per_spec_entry_witness :
    exPdup.edges = exP.edges
        ++ GraphBuilder.autoEdges [("P", "x"), ("P", "x")] "C"
            (Assoc.upd exP.tasks "C" (.functorOf "C"))
    ∧ ("P", "C") ∈ GraphBuilder.autoEdges [("P", "x"), ("P", "x")] "C"
        (Assoc.upd exP.tasks "C" (.functorOf "C")) := by
  have h := C6_edges_per_spec_entry exP "C" [("P", "x"), ("P", "x")] (fun _ => []) ["o"]
      exPdup "C" (by decide) rfl
  exact ⟨h.2.1, (h.2.2 "P" "C").mpr ⟨rfl, by simp, rfl⟩⟩

/-- Counterexample to claim C8: with a predicate returning branch index 2
(which is at least 1) the loop stops - the condition task's return value
selects nothing from the successor list [body, exit] - but the exit task
never runs (exits = 0), contradicting "the Exit task runs". -/
theorem C8_counterexample :
    loopRun (fun s : Int => s) (fun _ => (2 : Int)) false 6 (loopStart 0)
      = (LoopPhase.halted,
         { cell := 0, resultCh := Channel.unset, bodies := 1, exits := 0 }) := rfl

/-- Claim C8 as amended: in the loop wiring of create_loop_decl, after every
body execution the condition task runs; with no "result" output channel
declared (otherwise the condition task's second channel write aborts the
run, see C1) predicate index 0 reschedules the body, index 1 schedules the
exit task, and any index of 2 or more selects no successor, stopping the
loop WITHOUT running the exit task; the exit task runs at most once in any
run. -/
theorem C8_loop_state_machine (σ : Type) (bodyFn : σ → σ) (pred : σ → Int)
    (hasResult : Bool) (st : LoopState σ) :
    loopStep bodyFn pred hasResult (.body, st)
        = (.cond, { st with cell := bodyFn st.cell, bodies := st.bodies + 1 })
    ∧ (pred st.cell = 0 → loopStep bodyFn pred false (.cond, st) = (.body, st))
    ∧ (pred st.cell = 1 → loopStep bodyFn pred false (.cond, st) = (.exitT, st))
    ∧ (2 ≤ pred st.cell → loopStep bodyFn pred false (.cond, st) = (.halted, st))
    ∧ loopStep bodyFn pred hasResult (.exitT, st)
        = (.halted, { st with exits := st.exits + 1 })
    ∧ (∀ n s0, (loopRun bodyFn pred hasResult n (loopStart s0)).2.exits ≤ 1) := by
  refine ⟨rfl, ?_, ?_, ?_, rfl, fun n s0 => loopRun_exits_le_one bodyFn pred hasResult n s0⟩
  · intro h0
    simp [loopStep, h0]
  · intro h1
    simp [loopStep, h1]
  · intro h2
    have h0 : pred st.cell ≠ 0 := by omega
    have h1 : pred st.cell ≠ 1 := by omega
    simp [loopStep, h0, h1]

/-- Witness for the amended C8 at the counter loop (continue while the cell
is below 5). -/
theorem C8_loop_state_machine_witness :
    loopStep (fun s : Int => s + 1) (fun s => if s < 5 then (0 : Int) else 1) false
        (.cond, { cell := 1, resultCh := Channel.unset, bodies := 1, exits := 0 })
      = (.body, { cell := 1, resultCh := Channel.unset, bodies := 1, exits := 0 })
    ∧ loopStep (fun s : Int => s + 1) (fun s => if s < 5 then (0 : Int) else 1) false
        (.cond, { cell := 5, resultCh := Channel.unset, bodies := 5, exits := 0 })
      = (.exitT, { cell := 5, resultCh := Channel.unset, bodies := 5, exits := 0 })
    ∧ (loopRun (fun s : Int => s + 1) (fun s => if s < 5 then (0 : Int) else 1) false 20
        (loopStart 0)).2.exits ≤ 1 := by
  refine ⟨?_, ?_, ?_⟩
  · exact (C8_loop_state_machine Int (fun s => s + 1)
      (fun s => if s < 5 then (0 : Int) else 1) false
      { cell := 1, resultCh := Channel.unset, bodies := 1, exits := 0 }).2.1 (by decide)
  · exact (C8_loop_state_machine Int (fun s => s + 1)
      (fun s => if s < 5 then (0 : Int) else 1) false
      { cell := 5, resultCh := Channel.unset, bodies := 5, exits := 0 }).2.2.1 (by decide)
  · exact (C8_loop_state_machine Int (fun s => s + 1)
      (fun s => if s < 5 then (0 : Int) else 1) false
      { cell := 0, resultCh := Channel.unset, bodies := 0, exits := 0 }).2.2.2.2.2 20 0

/-- Counterexample to claim C9: running the graph with source "P" and keyed
subgraph "G" fulfils P's channel, but G's declared output channel "y" is
never fulfilled at all - the wrapper compute step that would write the
empty placeholders is never installed as a scheduler task (the task is
composed_of the nested taskflow, nodeflow.cpp:561) - whereas the claim says
every declared output channel IS fulfilled with an empty placeholder. -/
theorem C9_counterexample :
    derefChannel exPGrun ("P", "x") = some (Channel.set (AnyVal.vint 3))
    ∧ derefChannel exPGrun ("G", "y") = some Channel.unset := ⟨rfl, rfl⟩

/-- Claim C9 as amended: the keyed subgraph builder function is invoked at
construction with every input bound to an empty placeholder; both wrapper
compute steps return exactly the declared keys each mapped to an empty
std::any, never a nested-graph value; but only the subtask installs its
wrapper as a scheduler task, so only subtask output channels get fulfilled
(with the empty placeholder) while keyed-subgraph output channels are never
fulfilled. -/
theorem C9_placeholder_outputs (b : Builder) (name : String)
    (specs : List (String × String)) (output_keys : List String) :
    (∀ b2 arg, GraphBuilder.create_subgraph b name specs output_keys = .ok (b2, arg) →
      (∀ p ∈ arg, p.2 = AnyVal.empty)
      ∧ Assoc.find b2.tasks name = some (TaskAction.composedOf name)
      ∧ ∃ nd, Assoc.find b2.nodes name = some nd
          ∧ ∀ ins, nd.fn ins = output_keys.map (fun k => (k, AnyVal.empty)))
    ∧ (∀ b2 nm, name ≠ "" →
        GraphBuilder.create_subtask b name specs output_keys = .ok (b2, nm) →
        nm = name
        ∧ Assoc.find b2.tasks name = some (TaskAction.functorOf name)
        ∧ ∃ nd, Assoc.find b2.nodes name = some nd
            ∧ ∀ ins, nd.fn ins = output_keys.map (fun k => (k, AnyVal.empty)))
    ∧ (output_keys.Nodup →
        writeOutputs (AnyOutputs.ofKeys output_keys)
            (output_keys.map (fun k => (k, AnyVal.empty)))
          = (output_keys.map (fun k => (k, Channel.set AnyVal.empty)), none)) := by
  refine ⟨?_, ?_, ?_⟩
  · intro b2 arg h
    unfold GraphBuilder.create_subgraph at h
    cases hres : GraphBuilder.resolveInputFutures b specs with
    | error e =>
      rw [hres] at h
      exact (Except.noConfusion h)
    | ok fins =>
      rw [hres] at h
      have h2 := Except.ok.inj h
      injection h2 with hb harg
      subst hb
      subst harg
      refine ⟨?_, Assoc.find_upd_self _ _ _, _, Assoc.find_upd_self _ _ _, fun ins => rfl⟩
      intro p hp
      obtain ⟨q, _, rfl⟩ := List.mem_map.mp hp
      rfl
  · intro b2 nm hname h
    unfold GraphBuilder.create_subtask at h
    cases hres : GraphBuilder.resolveInputFutures b specs with
    | error e =>
      rw [hres] at h
      exact (Except.noConfusion h)
    | ok fins =>
      rw [hres] at h
      dsimp only at h
      unfold GraphBuilder.add_node GraphBuilder.addNamed at h
      rw [if_neg hname] at h
      by_cases hdup : (Assoc.find b.nodes name).isSome
      · rw [if_pos hdup] at h
        exact (Except.noConfusion h)
      · rw [if_neg hdup] at h
        have h2 := Except.ok.inj h
        injection h2 with hb hnm
        subst hb
        subst hnm
        exact ⟨rfl, Assoc.find_upd_self _ _ _, _, Assoc.find_upd_self _ _ _, fun ins => rfl⟩
  · intro hnodup
    rw [ofKeys_eq_map output_keys hnodup]
    have hfill := writeOutputs_fill AnyVal.empty output_keys [] hnodup (by intro k _; rfl)
    simpa using hfill

/-- Witness for the amended C9 at the concrete subgraph "G" and subtask "T". -/
theorem C9_placeholder_outputs_witness :
    Assoc.find exPG.tasks "G" = some (TaskAction.composedOf "G")
    ∧ Assoc.find exPT.tasks "T" = some (TaskAction.functorOf "T")
    ∧ writeOutputs (AnyOutputs.ofKeys ["y"]) [("y", AnyVal.empty)]
        = ([("y", Channel.set AnyVal.empty)], none) := by
  have hG := C9_placeholder_outputs exP "G" [("P", "x")] ["y"]
  have hT := C9_placeholder_outputs exP "T" [("P", "x")] ["y"]
  refine ⟨(hG.1 exPG [("x", AnyVal.empty)] rfl).2.1,
    (hT.2.1 exPT "T" (by decide) rfl).2.1, ?_⟩
  have h3 := hT.2.2 (by decide)
  simpa using h3

/-- Claim C1: the code aborts the very loop the claim describes. With the
loop_only.cpp configuration (external counter cell starting at 0, a body
incrementing the counter, predicate 0 while the counter is below 5 and 1
otherwise, output keys containing "result"), the condition task writes the
single-assignment "result" channel on every iteration (nodeflow.cpp:841-843);
the second write raises std::future_error and aborts the run after only two
body executions with counter 2 and no exit execution - not five body runs,
one exit and counter 5 as the claim and the spec state. Without a "result"
output channel the same wiring does produce exactly the claimed behaviour,
showing the spec is the intent and the channel rewrite a slip. -/
theorem C1_loop_run_aborts :
    loopRun (fun s : Int => s + 1) (fun s => if s < 5 then (0 : Int) else 1) true 12
        (loopStart 0)
      = (LoopPhase.failed WError.promiseAlreadySatisfied,
         { cell := 2, resultCh := Channel.set (AnyVal.vint 0), bodies := 2, exits := 0 })
    ∧ loopRun (fun s : Int => s + 1) (fun s => if s < 5 then (0 : Int) else 1) false 20
        (loopStart 0)
      = (LoopPhase.halted,
         { cell := 5, resultCh := Channel.unset, bodies := 5, exits := 1 }) :=
  ⟨rfl, rfl⟩

end Workflow


